import Mathlib

/-!
# Verification of the VirtualAssistant command-line assistant (src/V0.01/va.py)

A shallow embedding of the assistant's core: the persisted-state store
(`load_state`/`save_state`), the command registry (`COMMANDS`/`ALIASES`/
`resolve`), the intent fallback (`INTENT_MAP`/`guess_intent`), the command
handlers that touch state (`_note`, `_todo`, `_help`, `_say`), and one
iteration of the dispatch loop (`main`, lines 180-216).

Modelling conventions:
* Python's in-place mutation of the global `STATE` dict becomes explicit
  state passing: each handler takes a `VAState` and returns the new state,
  the lines it prints, and whether it called `save_state`.
* `dt.datetime.now()` is passed in as an already-rendered timestamp string.
* stdout is a list of `Out` values; `Out.box` records a call to `echo_box`
  without modelling its purely presentational layout (the spec scopes
  terminal formatting out of the core).
* The state file is a `StateFile`: missing, unreadable (present but
  `json.loads` raises), or well-formed JSON.  `json.dumps` followed by
  `json.loads` is the identity on JSON documents (a property of the Python
  standard library, not of this repository), so writing a document and
  re-reading the file is modelled as storing the document itself.
-/

namespace VA

/-- JSON documents, as produced by `json.loads` (only the constructors the
assistant's state ever uses: strings, booleans, arrays and objects). -/
inductive Json where
  | str (s : String)
  | bool (b : Bool)
  | arr (elems : List Json)
  | obj (fields : List (String × Json))

/-- A note entry: `{"when": ..., "text": ...}` (va.py line 101). -/
structure Note where
  whenAt : String
  text : String
deriving DecidableEq, Repr

/-- A todo entry: `{"text": ..., "done": ..., "created": ...}` (va.py line 120). -/
structure Todo where
  text : String
  done : Bool
  created : String
deriving DecidableEq, Repr

/-- The persisted state document: `{"notes": [...], "todos": [...], "created": ...}`
(va.py line 13). -/
structure VAState where
  notes : List Note
  todos : List Todo
  created : String
deriving DecidableEq, Repr

/-! ## Persistence (va.py lines 7-16) -/

/-- The state file at `STATE_PATH`, as `load_state` can observe it:
absent, present but not parseable as JSON, or well-formed JSON. -/
inductive StateFile where
  | missing
  | unreadable (raw : String)
  | wellFormed (doc : Json)

/-- The fresh default state document `{"notes": [], "todos": [], "created": now}`
(va.py line 13); `t` is `dt.datetime.now().isoformat()`. -/
def defaultStateJson (t : String) : Json :=
  .obj [("notes", .arr []), ("todos", .arr []), ("created", .str t)]

/-- `load_state` (va.py lines 7-13): if the file exists, try to parse it and
return the parsed document; on a missing file or any parse failure, fall back
to the fresh default.  The `try/except: pass` makes this a total function:
no error ever escapes to the caller. -/
def load_state (f : StateFile) (t : String) : Json :=
  match f with
  | .missing => defaultStateJson t
  | .unreadable _ => defaultStateJson t
  | .wellFormed doc => doc

/-- `save_state` (va.py lines 15-16) writes `json.dumps(state, indent=2)` to
`STATE_PATH`.  `json.loads` of that text is exactly `state` again (standard
library round trip), so the file after a save is well-formed JSON holding the
saved document. -/
def save_state (doc : Json) : StateFile :=
  .wellFormed doc

/-- Encoding of a note as the JSON object appended at va.py line 101. -/
def noteToJson (n : Note) : Json :=
  .obj [("when", .str n.whenAt), ("text", .str n.text)]

/-- Encoding of a todo as the JSON object appended at va.py line 120. -/
def todoToJson (td : Todo) : Json :=
  .obj [("text", .str td.text), ("done", .bool td.done), ("created", .str td.created)]

/-- Encoding of the whole in-memory state as the JSON document passed to
`save_state`. -/
def stateToJson (s : VAState) : Json :=
  .obj [ ("notes", .arr (s.notes.map noteToJson))
       , ("todos", .arr (s.todos.map todoToJson))
       , ("created", .str s.created) ]

/-- Field lookup in a JSON object (Python `doc[key]`, first binding wins). -/
def jsonField (j : Json) (k : String) : Option Json :=
  match j with
  | .obj fields => (fields.find? (fun p => p.1 == k)).map Prod.snd
  | _ => none

/-- Expect a JSON string (the shape `n["when"]`, `created` etc. must have). -/
def jsonAsStr (j : Json) : Option String :=
  match j with
  | .str s => some s
  | _ => none

/-- Expect a JSON boolean (the shape of a todo's `done` field). -/
def jsonAsBool (j : Json) : Option Bool :=
  match j with
  | .bool b => some b
  | _ => none

/-- Expect a JSON array (the shape of `notes` and `todos`). -/
def jsonAsArr (j : Json) : Option (List Json) :=
  match j with
  | .arr xs => some xs
  | _ => none

/-- Reading a note back out of its JSON encoding. -/
def jsonToNote (j : Json) : Option Note := do
  let w ← jsonField j "when" >>= jsonAsStr
  let tx ← jsonField j "text" >>= jsonAsStr
  pure ⟨w, tx⟩

/-- Reading a todo back out of its JSON encoding. -/
def jsonToTodo (j : Json) : Option Todo := do
  let tx ← jsonField j "text" >>= jsonAsStr
  let d ← jsonField j "done" >>= jsonAsBool
  let c ← jsonField j "created" >>= jsonAsStr
  pure ⟨tx, d, c⟩

/-- Decode every element of a JSON array, failing if any element fails. -/
def decodeAll (f : Json → Option α) : List Json → Option (List α)
  | [] => some []
  | j :: rest => do
    let a ← f j
    let as ← decodeAll f rest
    pure (a :: as)

/-- Reading a whole state document back into the typed in-memory view. -/
def jsonToState (j : Json) : Option VAState := do
  let ns ← jsonField j "notes" >>= jsonAsArr
  let ts ← jsonField j "todos" >>= jsonAsArr
  let c ← jsonField j "created" >>= jsonAsStr
  let notes ← decodeAll jsonToNote ns
  let todos ← decodeAll jsonToTodo ts
  pure ⟨notes, todos, c⟩

/-! ## Command registry (va.py lines 20-37 and the `@command` decorators) -/

/-- The registry built by the `@command` decorators at import time, in
registration order: name paired with its (stripped) help text. -/
def REGISTRY : List (String × String) :=
  [ ("help", "help [command] — show help (for all commands or a specific one)")
  , ("time", "time — show current date/time")
  , ("say", "say <text> — repeat back your text")
  , ("note", "note <text> — save a quick note\nnote list     — list notes")
  , ("todo", "todo add <text>     — add a todo\ntodo list           — list todos\ntodo done <number>  — mark done (by number)")
  , ("history", "history — show recent commands")
  , ("clear", "clear — clear the screen")
  , ("exit", "exit — leave the assistant") ]

/-- The registered command names (the keys of the `COMMANDS` dict). -/
def COMMANDS : List String := REGISTRY.map Prod.fst

/-- The alias table built by the `@command` decorators: alias paired with
the canonical name it was registered for. -/
def ALIASES : List (String × String) :=
  [ ("?", "help"), ("date", "time"), ("addnote", "note"), ("n", "note")
  , ("t", "todo"), ("task", "todo"), ("quit", "exit"), ("q", "exit") ]

/-- The help text of a registered command, `COMMANDS[name]["help"]`. -/
def helpOf (name : String) : String :=
  ((REGISTRY.find? (fun p => p.1 == name)).map Prod.snd).getD ""

/-- `resolve` (va.py lines 32-37): the token itself if it is a registered
command name, else the alias target if it is a registered alias, else
not-found.  Exact, case-sensitive dictionary lookups. -/
def resolve (cmd : String) : Option String :=
  if COMMANDS.contains cmd then some cmd
  else (ALIASES.find? (fun p => p.1 == cmd)).map Prod.snd

/-! ## Intent fallback (va.py lines 157-172) -/

/-- The ordered rule list `INTENT_MAP` (va.py lines 157-163); the Python
keyword sets become keyword lists (only membership is ever used). -/
def INTENT_MAP : List (List String × String) :=
  [ (["note", "remember", "jot"], "note")
  , (["task", "todo", "remind"], "todo")
  , (["time", "date", "clock"], "time")
  , (["repeat", "say", "echo"], "say")
  , (["help"], "help") ]

/-- Python `str.lower()`: lower-case the string character by character
(the assistant only ever lower-cases ASCII command words). -/
def pyLower (s : String) : String := String.mk (s.data.map Char.toLower)

/-- `keys & words`, nonempty set intersection as a Boolean. -/
def intersects (keys words : List String) : Bool :=
  keys.any (fun k => words.contains k)

/-- The `for keys, cmd in INTENT_MAP: ... break` loop of `guess_intent`:
the command of the first rule whose keyword set meets `words`. -/
def guessIntentAux : List (List String × String) → List String → Option String
  | [], _ => none
  | (keys, cmd) :: rest, words =>
    if intersects keys words then some cmd else guessIntentAux rest words

/-- `guess_intent` (va.py lines 165-172): lower-case the tokens (the Python
code also deduplicates them into a set, which cannot change any
intersection test) and return the first matching rule's command. -/
def guess_intent (tokens : List String) : Option String :=
  guessIntentAux INTENT_MAP (tokens.map pyLower)

/-! ## Command handlers (va.py lines 54-154)

Each handler becomes `args → now → state → HandlerResult`; the Python
handlers read and mutate the global `STATE` and print to stdout, so the
result records the new state, the printed output, and whether `save_state`
was called. -/

/-- One unit of printed output: a `print(...)` call, or an `echo_box(...)`
call recorded with its unformatted payload (the box layout itself is
presentation-only and outside the core). -/
inductive Out where
  | line (s : String)
  | box (s : String)
deriving DecidableEq, Repr

/-- What one handler invocation does: the state it leaves behind, what it
prints, and whether it flushed the state with `save_state`. -/
structure HandlerResult where
  state : VAState
  out : List Out
  saved : Bool
deriving DecidableEq, Repr

/-- Python `sorted` on strings (insertion sort; `sorted` is stable and
total on the distinct command names). -/
def insertSorted (x : String) : List String → List String
  | [] => [x]
  | y :: ys => if x ≤ y then x :: y :: ys else y :: insertSorted x ys

def pySorted (l : List String) : List String := l.foldr insertSorted []

/-- Python `s.ljust(w)`: pad with spaces on the right to width `w`. -/
def ljust (s : String) (w : Nat) : String :=
  s ++ String.mk (List.replicate (w - s.length) ' ')

/-- `help.splitlines()[0] if help else ""` (va.py line 71). -/
def firstHelpLine (h : String) : String :=
  if h = "" then "" else ((h.splitOn "\n").headD "")

/-- `_help` (va.py lines 57-72).  With an argument: resolve it, report
"No such command" on failure, otherwise box the full help text.  Without:
box the header and print one line per sorted command name with the first
line of its help.  Reads only the registry; never touches `STATE` and
never calls `save_state`. -/
def _help (args : List String) (s : VAState) : HandlerResult :=
  match args with
  | a0 :: _ =>
    match resolve a0 with
    | none => ⟨s, [.line ("No such command: " ++ a0)], false⟩
    | some cmd =>
      let h := if helpOf cmd = "" then "(no help text)" else helpOf cmd
      ⟨s, [.box (cmd ++ "\n\n" ++ h)], false⟩
  | [] =>
    let names := pySorted COMMANDS
    let width := (names.map String.length).foldl max 0
    ⟨s, .box "Commands:" ::
        names.map (fun n => .line ("  " ++ ljust n width ++ "  " ++ firstHelpLine (helpOf n))),
      false⟩

/-- `_say` (va.py lines 79-83): echo the joined arguments. -/
def _say (args : List String) (s : VAState) : HandlerResult :=
  match args with
  | [] => ⟨s, [.line "Usage: say <text>"], false⟩
  | _ => ⟨s, [.line (String.intercalate " " args)], false⟩

/-- One line of `note list` output: `f"{i}. {n['when']} — {n['text']}"`
(va.py line 98). -/
def noteLine (i : Nat) (n : Note) : String :=
  toString i ++ ". " ++ n.whenAt ++ " — " ++ n.text

/-- The `for i, n in enumerate(STATE["notes"], 1)` loop (va.py lines 97-98),
numbering from `i`. -/
def noteLines (i : Nat) : List Note → List String
  | [] => []
  | n :: rest => noteLine i n :: noteLines (i + 1) rest

/-- `_note` (va.py lines 89-103): no arguments prints usage; first argument
`"list"` prints the numbered notes (or a placeholder); anything else joins
the arguments into the note text, appends a note stamped with
`now().isoformat(timespec="seconds")` (= `t`), and saves. -/
def _note (args : List String) (t : String) (s : VAState) : HandlerResult :=
  match args with
  | [] => ⟨s, [.line "Usage: note <text> | note list"], false⟩
  | a0 :: _ =>
    if a0 = "list" then
      if s.notes = [] then ⟨s, [.line "(no notes)"], false⟩
      else ⟨s, (noteLines 1 s.notes).map Out.line, false⟩
    else
      let text := String.intercalate " " args
      ⟨{ s with notes := s.notes ++ [⟨t, text⟩] }, [.line "Saved note."], true⟩

/-- A sequence of note-taking dispatches: run `_note` once per operation
(`op.1` the timestamp, `op.2` the argument tokens), threading the state. -/
def noteAdds : List (String × List String) → VAState → VAState
  | [], s => s
  | op :: rest, s => noteAdds rest (_note op.2 op.1 s).state

/-- Python `f"{i:2}"`: decimal rendering left-padded with spaces to width 2. -/
def pad2 (i : Nat) : String :=
  let si := toString i
  String.mk (List.replicate (2 - si.length) ' ') ++ si

/-- One line of `todo list` output: `f"{i:2}. {box} {t['text']}"`
(va.py lines 128-129). -/
def todoLine (i : Nat) (td : Todo) : String :=
  pad2 i ++ ". " ++ (if td.done then "[x]" else "[ ]") ++ " " ++ td.text

/-- The `for i, t in enumerate(STATE["todos"], 1)` loop (va.py lines 127-129). -/
def todoLines (i : Nat) : List Todo → List String
  | [] => []
  | td :: rest => todoLine i td :: todoLines (i + 1) rest

/-- Python `str.isdigit` for the ASCII digit strings the todo command
cares about: nonempty and all characters `0`-`9`. -/
def isdigit (s : String) : Bool :=
  !s.data.isEmpty && s.data.all Char.isDigit

/-- Python `int(s)` on a string that passed `isdigit`: the value of its
decimal digits. -/
def pyInt (s : String) : Nat :=
  s.data.foldl (fun n c => 10 * n + (c.toNat - 48)) 0

/-- `STATE["todos"][idx]["done"] = True` (va.py line 138): in-place update
of the `done` field at 0-based index `idx`, all other entries untouched. -/
def markDone : List Todo → Nat → List Todo
  | [], _ => []
  | td :: rest, 0 => { td with done := true } :: rest
  | td :: rest, i + 1 => td :: markDone rest i

/-- The multi-line usage message of `_todo` (va.py line 112). -/
def todoUsage : String :=
  "Usage:\n  todo add <text>\n  todo list\n  todo done <number>"

/-- `_todo` (va.py lines 110-140).  Subcommands `add`/`list`/`done`; any
other (or missing) first argument prints usage.  `done` demands a second,
digit-only argument; `int(args[1]) - 1` must land inside the list
(`idx < 0 or idx >= len` is rejected as "Invalid number.", so a `0` or
too-large number changes nothing); on success only entry `idx` has its
`done` flag set.  `t` is `now().isoformat(timespec="seconds")`. -/
def _todo (args : List String) (t : String) (s : VAState) : HandlerResult :=
  match args with
  | [] => ⟨s, [.line todoUsage], false⟩
  | sub :: rest =>
    if sub = "add" then
      let text := (String.intercalate " " rest).trim
      if text = "" then ⟨s, [.line "Provide a task description."], false⟩
      else ⟨{ s with todos := s.todos ++ [⟨text, false, t⟩] }, [.line "Added."], true⟩
    else if sub = "list" then
      if s.todos = [] then ⟨s, [.line "(no todos)"], false⟩
      else ⟨s, (todoLines 1 s.todos).map Out.line, false⟩
    else if sub = "done" then
      match rest with
      | [] => ⟨s, [.line "Provide the todo number to mark done."], false⟩
      | num :: _ =>
        if isdigit num then
          let v := pyInt num
          if v = 0 ∨ s.todos.length < v then ⟨s, [.line "Invalid number."], false⟩
          else ⟨{ s with todos := markDone s.todos (v - 1) }, [.line "Marked done."], true⟩
        else ⟨s, [.line "Provide the todo number to mark done."], false⟩
    else ⟨s, [.line todoUsage], false⟩

/-! ## Dispatch (va.py lines 180-216) -/

/-- What the call `COMMANDS[cmd]["fn"](args)` can do, seen from the
`try/except` around it: return normally, raise `SystemExit` (only
`sys.exit(0)` inside `_exit`), or raise any other exception carrying a
message — a raise can leave the in-place-mutated state at `s'`. -/
inductive Invocation where
  | ok (r : HandlerResult)
  | sysExit (out : List Out)
  | raises (s' : VAState) (msg : String)
deriving DecidableEq, Repr

/-- Dispatch on the resolved command name to its registered handler
(the `fn` entries built by the `@command` decorators).  `_time` prints the
current time (rendered as `t`); `_history` prints the recent input lines
and `_clear` clears the screen — neither touches `STATE` (their output is
presentation-only and not modelled further).  `_exit` prints "Bye!" and
raises `SystemExit` via `sys.exit(0)`.  An unregistered `cmd` would be a
`KeyError` from `COMMANDS[cmd]` inside the `try`. -/
def execCommand (cmd : String) (args : List String) (t : String) (s : VAState) : Invocation :=
  if cmd = "help" then .ok (_help args s)
  else if cmd = "time" then .ok ⟨s, [.line t], false⟩
  else if cmd = "say" then .ok (_say args s)
  else if cmd = "note" then .ok (_note args t s)
  else if cmd = "todo" then .ok (_todo args t s)
  else if cmd = "history" then .ok ⟨s, [], false⟩
  else if cmd = "clear" then .ok ⟨s, [], false⟩
  else if cmd = "exit" then .sysExit [.line "Bye!"]
  else .raises s ("KeyError: " ++ cmd)

/-- The stop-word tuple `("please","me","a","the")` of va.py line 204. -/
def STOPWORDS : List String := ["please", "me", "a", "the"]

/-- Outcome of resolving one tokenized line (va.py lines 196-210): a
command to run with its arguments, or the "Unknown command" report. -/
inductive Resolution where
  | run (cmd : String) (args : List String)
  | unknown (tok : String)
deriving DecidableEq, Repr

/-- Lines 196-210 of `main`: split off the command token, `resolve` it;
on failure try `guess_intent` on ALL tokens, drop stop-words from the
remaining arguments, and if the guess is `note` with no arguments left,
use the whole original line as the single argument.  (The `[]` case cannot
be reached: `shlex.split` of a nonempty stripped line is nonempty.) -/
def resolveLine (parts : List String) : Resolution :=
  match parts with
  | [] => .unknown ""
  | cmd_token :: args =>
    match resolve cmd_token with
    | some cmd => .run cmd args
    | none =>
      match guess_intent parts with
      | some cmd =>
        let args2 := args.filter (fun a => !STOPWORDS.contains (pyLower a))
        if cmd = "note" ∧ args2 = [] then .run cmd [String.intercalate " " parts]
        else .run cmd args2
      | none => .unknown cmd_token

/-- What the read at `input("va> ")` produced for one loop iteration:
a line that `shlex.split` tokenized (or on which it raised `ValueError`
with message `e`), end of input (`EOFError`), or Ctrl+C
(`KeyboardInterrupt`). -/
inductive ReadEvent where
  | gotLine (toks : Except String (List String))
  | endOfInput
  | interrupt
deriving Repr

/-- How one iteration of the `while True` loop ends: keep looping with the
(possibly updated) state and the output printed, or leave the process
(`SystemExit` propagating out of `main`). -/
inductive StepResult where
  | continued (s : VAState) (out : List Out) (saved : Bool)
  | exited (out : List Out)
deriving DecidableEq, Repr

/-- The `try/except` around `COMMANDS[cmd]["fn"](args)` (va.py lines
211-216): a normal return continues; `SystemExit` is re-raised and leaves
the process; any other exception is caught and reported as one line, and
the loop continues. -/
def guardInvoke (cmd : String) (inv : Invocation) : StepResult :=
  match inv with
  | .ok r => .continued r.state r.out r.saved
  | .sysExit out => .exited out
  | .raises s' msg =>
    .continued s' [.line ("Error running " ++ "\x27" ++ cmd ++ "\x27" ++ ": " ++ msg)] false

/-- One iteration of the main loop (va.py lines 182-216) on a nonempty
input line.  `EOFError`/`KeyboardInterrupt` print a newline and run
`_exit([])` ("Bye!", `sys.exit(0)`); a `shlex` failure reports a parse
error and continues; otherwise the line is resolved and dispatched behind
`guardInvoke`. -/
def stepEvent (t : String) (s : VAState) : ReadEvent → StepResult
  | .endOfInput => .exited [.line "", .line "Bye!"]
  | .interrupt => .exited [.line "", .line "Bye!"]
  | .gotLine (.error e) => .continued s [.line ("Parse error: " ++ e)] false
  | .gotLine (.ok parts) =>
    match resolveLine parts with
    | .unknown tok =>
      .continued s [.line ("Unknown command: " ++ tok ++ ". Try " ++ "\x27" ++ "help" ++ "\x27" ++ ".")] false
    | .run cmd args => guardInvoke cmd (execCommand cmd args t s)

/-! ## Helper lemmas -/

/-- Every alias target in the startup alias table is a registered name. -/
theorem alias_targets_registered : ∀ p ∈ ALIASES, p.2 ∈ COMMANDS := by decide

/-! ## Claims -/

/-- C1: `resolve` returns a registered command name unchanged, maps every
registered alias to the canonical name it was registered for, and returns
not-found on any token that is neither a registered name nor an alias key;
lookup is case-sensitive, so every upper-cased variant of a registered
name resolves to not-found. -/
theorem resolve_lookup :
    (∀ tok : String, tok ∈ COMMANDS → resolve tok = some tok) ∧
    (∀ tok tgt : String, (tok, tgt) ∈ ALIASES → resolve tok = some tgt) ∧
    (∀ tok : String, tok ∉ COMMANDS → tok ∉ ALIASES.map Prod.fst → resolve tok = none) ∧
    (∀ u ∈ ["HELP", "TIME", "SAY", "NOTE", "TODO", "HISTORY", "CLEAR", "EXIT"],
      resolve u = none) := by
  refine ⟨?_, ?_, ?_, by decide⟩
  · intro tok h
    unfold resolve
    rw [if_pos (by simpa using h)]
  · intro tok tgt h
    have hall : ∀ p ∈ ALIASES, resolve p.1 = some p.2 := by decide
    exact hall (tok, tgt) h
  · intro tok h1 h2
    unfold resolve
    rw [if_neg (fun hcon => h1 (by simpa using hcon))]
    rw [List.find?_eq_none.mpr]
    · rfl
    · intro p hp hbeq
      exact h2 (by
        have hpt : p.1 = tok := by simpa using hbeq
        exact hpt ▸ List.mem_map_of_mem Prod.fst hp)

/-- Witness for C1 at concrete tokens. -/
theorem resolve_lookup_witness :
    resolve "note" = some "note" ∧ resolve "addnote" = some "note" ∧
    resolve "frobnicate" = none :=
  ⟨resolve_lookup.1 "note" (by decide),
   resolve_lookup.2.1 "addnote" "note" (by decide),
   resolve_lookup.2.2.1 "frobnicate" (by decide) (by decide)⟩

/-- C9: after startup registration, every alias in the alias table maps to
a name present in the command registry, and consequently `resolve` never
returns a name absent from the registry. -/
theorem aliases_into_registry :
    (∀ p ∈ ALIASES, p.2 ∈ COMMANDS) ∧
    (∀ tok name : String, resolve tok = some name → name ∈ COMMANDS) := by
  refine ⟨alias_targets_registered, ?_⟩
  intro tok name h
  unfold resolve at h
  by_cases hc : COMMANDS.contains tok
  · rw [if_pos hc] at h
    cases h
    simpa using hc
  · rw [if_neg hc] at h
    cases hf : ALIASES.find? (fun p => p.1 == tok) with
    | none => rw [hf] at h; cases h
    | some p =>
      rw [hf] at h
      have hp2 : p.2 = name := by simpa using h
      exact hp2 ▸ alias_targets_registered p (List.mem_of_find?_eq_some hf)

/-- Witness for C9: resolving the alias `q` lands on a registered name. -/
theorem aliases_into_registry_witness : "exit" ∈ COMMANDS :=
  aliases_into_registry.2 "q" "exit" rfl

/-- The keyword/token intersection test holds exactly when some keyword is
among the words. -/
theorem intersects_iff (keys words : List String) :
    intersects keys words = true ↔ ∃ k ∈ keys, k ∈ words := by
  simp [intersects]

/-- The intent loop returns `none` exactly when no rule's keyword set meets
the words. -/
theorem guessIntentAux_eq_none_iff (rules : List (List String × String))
    (words : List String) :
    guessIntentAux rules words = none ↔ ∀ r ∈ rules, intersects r.1 words = false := by
  induction rules with
  | nil => simp [guessIntentAux]
  | cons hd tl ih =>
    obtain ⟨keys, cmd⟩ := hd
    cases h : intersects keys words with
    | true => simp [guessIntentAux, h]
    | false => simp [guessIntentAux, h, ih]

/-- The intent loop returns the command of the first matching rule: if rule
`i` matches and no earlier rule does, the loop answers rule `i`. -/
theorem guessIntentAux_first (rules : List (List String × String))
    (words : List String) :
    ∀ (i : Nat) (r : List String × String), rules.get? i = some r →
      (∀ r2 ∈ rules.take i, intersects r2.1 words = false) →
      intersects r.1 words = true →
      guessIntentAux rules words = some r.2 := by
  induction rules with
  | nil => intro i r h; simp at h
  | cons hd tl ih =>
    intro i r hget htake hint
    cases i with
    | zero =>
      simp only [List.get?] at hget
      cases hget
      obtain ⟨keys, cmd⟩ := hd
      simp [guessIntentAux, hint]
    | succ n =>
      have h0 : intersects hd.1 words = false := htake hd (by simp)
      obtain ⟨keys, cmd⟩ := hd
      simp only [List.get?] at hget
      simp only [guessIntentAux, h0, Bool.false_eq_true, if_false]
      exact ih n r hget (fun r2 hr2 => htake r2 (by simp [List.take, hr2])) hint

/-- C2: `guess_intent` lower-cases the tokens and scans the fixed rule list
in order: it answers `none` exactly when no rule's keyword set meets the
token set, answers the FIRST intersecting rule's command, and in
particular any input containing both a note-keyword and a todo-keyword
yields the note command, because the note rule comes first. -/
theorem guess_intent_first_match :
    ∀ tokens : List String,
      (guess_intent tokens = none ↔
        ∀ r ∈ INTENT_MAP, intersects r.1 (tokens.map pyLower) = false) ∧
      (∀ (i : Nat) (r : List String × String), INTENT_MAP.get? i = some r →
        (∀ r2 ∈ INTENT_MAP.take i, intersects r2.1 (tokens.map pyLower) = false) →
        intersects r.1 (tokens.map pyLower) = true →
        guess_intent tokens = some r.2) ∧
      ((∃ tk ∈ tokens, pyLower tk ∈ ["note", "remember", "jot"]) →
        (∃ tk ∈ tokens, pyLower tk ∈ ["task", "todo", "remind"]) →
        guess_intent tokens = some "note") := by
  intro tokens
  refine ⟨guessIntentAux_eq_none_iff _ _, fun i r => guessIntentAux_first _ _ i r, ?_⟩
  intro hnote _
  have hint : intersects ["note", "remember", "jot"] (tokens.map pyLower) = true := by
    rw [intersects_iff]
    obtain ⟨tk, htk, hkey⟩ := hnote
    exact ⟨pyLower tk, hkey, List.mem_map_of_mem pyLower htk⟩
  exact guessIntentAux_first INTENT_MAP (tokens.map pyLower) 0
    (["note", "remember", "jot"], "note") rfl (by simp) hint

/-- Witness for C2: a token list holding both the note-keyword `remember`
and the todo-keyword `TODO` resolves to the note command. -/
theorem guess_intent_first_match_witness :
    guess_intent ["please", "remember", "my", "TODO"] = some "note" :=
  (guess_intent_first_match ["please", "remember", "my", "TODO"]).2.2
    ⟨"remember", by decide, by decide⟩ ⟨"TODO", by decide, by decide⟩

/-- C5: `load_state` never fails visibly: a missing state file and an
unparseable state file both produce the fresh default state — empty notes,
empty todos, `created` set to the current time — and `load_state` is a
total function, so no error reaches the caller. -/
theorem load_state_defaults :
    ∀ (raw t : String),
      load_state .missing t = defaultStateJson t ∧
      load_state (.unreadable raw) t = defaultStateJson t ∧
      jsonToState (defaultStateJson t) = some ⟨[], [], t⟩ :=
  fun _ _ => ⟨rfl, rfl, rfl⟩

/-- A note decodes back from its own encoding. -/
theorem jsonToNote_noteToJson (n : Note) : jsonToNote (noteToJson n) = some n := rfl

/-- A todo decodes back from its own encoding. -/
theorem jsonToTodo_todoToJson (td : Todo) : jsonToTodo (todoToJson td) = some td := rfl

/-- Decoding inverts encoding elementwise across a whole array. -/
theorem decodeAll_map_noteToJson (xs : List Note) :
    decodeAll jsonToNote (xs.map noteToJson) = some xs := by
  induction xs with
  | nil => rfl
  | cons x xs ih => simp [decodeAll, jsonToNote_noteToJson, ih]

/-- Decoding inverts encoding elementwise across a whole array. -/
theorem decodeAll_map_todoToJson (xs : List Todo) :
    decodeAll jsonToTodo (xs.map todoToJson) = some xs := by
  induction xs with
  | nil => rfl
  | cons x xs ih => simp [decodeAll, jsonToTodo_todoToJson, ih]

/-- C4: `save_state` followed by `load_state` restores the persisted state
exactly: the loaded document is the saved document, and reading its
`notes`, `todos` and `created` fields back recovers the original state
unchanged. -/
theorem save_load_roundtrip :
    ∀ (s : VAState) (t : String),
      load_state (save_state (stateToJson s)) t = stateToJson s ∧
      jsonToState (load_state (save_state (stateToJson s)) t) = some s := by
  intro s t
  refine ⟨rfl, ?_⟩
  show jsonToState (stateToJson s) = some s
  simp [jsonToState, stateToJson, jsonField, jsonAsArr, jsonAsStr,
    decodeAll_map_noteToJson, decodeAll_map_todoToJson]

/-- `markDone` keeps the list length. -/
theorem markDone_length (l : List Todo) (i : Nat) : (markDone l i).length = l.length := by
  induction l generalizing i with
  | nil => rfl
  | cons hd tl ih =>
    cases i with
    | zero => rfl
    | succ n => simp [markDone, ih]

/-- `markDone` flips exactly the `done` flag of the entry at index `i` and
touches nothing else. -/
theorem markDone_getElem (l : List Todo) (i j : Nat) :
    (markDone l i)[j]? =
      if j = i then l[j]?.map (fun td => { td with done := true })
      else l[j]? := by
  induction l generalizing i j with
  | nil => simp [markDone]
  | cons hd tl ih =>
    cases i with
    | zero =>
      cases j with
      | zero => simp [markDone]
      | succ m => simp [markDone]
    | succ n =>
      cases j with
      | zero => simp [markDone]
      | succ m => simpa [markDone] using ih n m

/-- C6: `todo done k` with a digit-string `k` between 1 and the list length
sets exactly entry `k`'s `done` field (all other entries, and the other
fields of entry `k`, are unchanged) and saves; an out-of-range or
non-numeric `k` leaves the todos untouched, prints an error line, does not
save, and — being a total function — does not crash. -/
theorem todo_done_spec :
    ∀ (s : VAState) (t num : String) (rest : List String),
      (isdigit num = true → 1 ≤ pyInt num → pyInt num ≤ s.todos.length →
        _todo ("done" :: num :: rest) t s =
          ⟨{ s with todos := markDone s.todos (pyInt num - 1) },
            [.line "Marked done."], true⟩ ∧
        (markDone s.todos (pyInt num - 1)).length = s.todos.length ∧
        (∀ j : Nat, j ≠ pyInt num - 1 →
          (markDone s.todos (pyInt num - 1))[j]? = s.todos[j]?) ∧
        (markDone s.todos (pyInt num - 1))[pyInt num - 1]?
          = s.todos[pyInt num - 1]?.map (fun td => { td with done := true })) ∧
      ((isdigit num = false ∨ pyInt num = 0 ∨ s.todos.length < pyInt num) →
        (_todo ("done" :: num :: rest) t s).state = s ∧
        (_todo ("done" :: num :: rest) t s).saved = false ∧
        ((_todo ("done" :: num :: rest) t s).out
            = [.line "Provide the todo number to mark done."] ∨
          (_todo ("done" :: num :: rest) t s).out = [.line "Invalid number."])) := by
  intro s t num rest
  have e : _todo ("done" :: num :: rest) t s =
      (if isdigit num then
        (if pyInt num = 0 ∨ s.todos.length < pyInt num then
          ⟨s, [.line "Invalid number."], false⟩
        else ⟨{ s with todos := markDone s.todos (pyInt num - 1) },
          [.line "Marked done."], true⟩ : HandlerResult)
      else ⟨s, [.line "Provide the todo number to mark done."], false⟩) := rfl
  constructor
  · intro hdig h1 h2
    have hnum : ¬(pyInt num = 0 ∨ s.todos.length < pyInt num) := by omega
    refine ⟨by rw [e, hdig, if_pos rfl, if_neg hnum], markDone_length _ _, ?_, ?_⟩
    · intro j hj
      rw [markDone_getElem, if_neg hj]
    · rw [markDone_getElem, if_pos rfl]
  · intro hbad
    by_cases hdig : isdigit num = true
    · have hrange : pyInt num = 0 ∨ s.todos.length < pyInt num := by
        rcases hbad with h | h | h
        · rw [hdig] at h; cases h
        · exact .inl h
        · exact .inr h
      rw [e, hdig, if_pos rfl, if_pos hrange]
      exact ⟨rfl, rfl, .inr rfl⟩
    · have hdig2 : isdigit num = false := by
        revert hdig; cases isdigit num <;> simp
      rw [e, hdig2]
      exact ⟨by simp, by simp, .inl (by simp)⟩

/-- Witness for C6: marking todo 2 of 2 done flips exactly that entry;
an out-of-range number changes nothing. -/
theorem todo_done_spec_witness :
    _todo ["done", "2"] "T" ⟨[], [⟨"a", false, "x"⟩, ⟨"b", false, "y"⟩], "c"⟩ =
      ⟨⟨[], [⟨"a", false, "x"⟩, ⟨"b", true, "y"⟩], "c"⟩, [.line "Marked done."], true⟩ ∧
    (_todo ["done", "99"] "T" ⟨[], [⟨"a", false, "x"⟩, ⟨"b", false, "y"⟩], "c"⟩).state
      = ⟨[], [⟨"a", false, "x"⟩, ⟨"b", false, "y"⟩], "c"⟩ := by
  constructor
  · have h := (todo_done_spec ⟨[], [⟨"a", false, "x"⟩, ⟨"b", false, "y"⟩], "c"⟩
      "T" "2" []).1 (by decide) (by decide) (by decide)
    rw [h.1]
    rfl
  · exact ((todo_done_spec ⟨[], [⟨"a", false, "x"⟩, ⟨"b", false, "y"⟩], "c"⟩
      "T" "99" []).2 (by decide)).1

/-- `_note` on a nonempty argument list not starting with `list` appends
one note holding the joined arguments and saves. -/
theorem note_add_eq (args : List String) (t : String) (s : VAState)
    (h1 : args ≠ []) (h2 : args.headD "" ≠ "list") :
    _note args t s =
      ⟨{ s with notes := s.notes ++ [⟨t, String.intercalate " " args⟩] },
        [.line "Saved note."], true⟩ := by
  match args with
  | [] => exact absurd rfl h1
  | a0 :: rest =>
    have ha : ¬(a0 = "list") := by simpa using h2
    simp [_note, ha]

/-- `noteLines i` numbers the notes upward from `i` in list order. -/
theorem noteLines_getElem (notes : List Note) (i j : Nat) :
    (noteLines i notes)[j]? = notes[j]?.map (fun n => noteLine (i + j) n) := by
  induction notes generalizing i j with
  | nil => simp [noteLines]
  | cons hd tl ih =>
    cases j with
    | zero => simp [noteLines]
    | succ m =>
      simp only [noteLines, List.getElem?_cons_succ]
      rw [ih, Nat.add_right_comm i 1 m, Nat.add_assoc]

/-- Running a list of note additions appends their notes in order after the
existing ones. -/
theorem noteAdds_notes :
    ∀ (ops : List (String × List String)) (s : VAState),
      (∀ p ∈ ops, p.2 ≠ [] ∧ p.2.headD "" ≠ "list") →
      (noteAdds ops s).notes
        = s.notes ++ ops.map (fun p => ⟨p.1, String.intercalate " " p.2⟩) := by
  intro ops
  induction ops with
  | nil => intro s _; simp [noteAdds]
  | cons op rest ih =>
    intro s h
    have hop := h op (by simp)
    rw [noteAdds, note_add_eq op.2 op.1 s hop.1 hop.2,
      ih _ (fun p hp => h p (by simp [hp]))]
    simp

/-- C7: a sequence of note additions appends exactly its texts, in order,
after the pre-existing notes (which are never modified or removed), and
`note list` prints the notes in that same order with 1-based numbering. -/
theorem note_append_order :
    ∀ (ops : List (String × List String)) (s : VAState) (t : String),
      (∀ p ∈ ops, p.2 ≠ [] ∧ p.2.headD "" ≠ "list") →
      (noteAdds ops s).notes
        = s.notes ++ ops.map (fun p => ⟨p.1, String.intercalate " " p.2⟩) ∧
      (noteAdds ops s).notes.map Note.text
        = s.notes.map Note.text ++ ops.map (fun p => String.intercalate " " p.2) ∧
      (∀ j : Nat, (noteLines 1 (noteAdds ops s).notes)[j]?
        = (noteAdds ops s).notes[j]?.map (fun n => noteLine (j + 1) n)) ∧
      ((noteAdds ops s).notes ≠ [] →
        _note ["list"] t (noteAdds ops s)
          = ⟨noteAdds ops s, (noteLines 1 (noteAdds ops s).notes).map Out.line, false⟩) := by
  intro ops s t h
  refine ⟨noteAdds_notes ops s h, ?_, ?_, ?_⟩
  · rw [noteAdds_notes ops s h]; simp
  · intro j
    have hg := noteLines_getElem (noteAdds ops s).notes 1 j
    rwa [Nat.add_comm 1 j] at hg
  · intro hne
    have e : _note ["list"] t (noteAdds ops s) =
        (if (noteAdds ops s).notes = [] then ⟨noteAdds ops s, [.line "(no notes)"], false⟩
        else ⟨noteAdds ops s, (noteLines 1 (noteAdds ops s).notes).map Out.line, false⟩
          : HandlerResult) := rfl
    rw [e, if_neg hne]

/-- Witness for C7: two additions on an empty state store both texts in order. -/
theorem note_append_order_witness :
    (noteAdds [("t1", ["buy", "milk"]), ("t2", ["hello"])] ⟨[], [], "c"⟩).notes
      = [⟨"t1", "buy milk"⟩, ⟨"t2", "hello"⟩] := by
  have h := (note_append_order [("t1", ["buy", "milk"]), ("t2", ["hello"])]
    ⟨[], [], "c"⟩ "T" (by decide)).1
  rw [h]
  rfl

/-- C10: the read-only commands `note list`, `todo list` and `help` (with
or without an argument) leave the persisted state identical and never call
`save_state`. -/
theorem readonly_commands_frame :
    ∀ (s : VAState) (t : String) (args : List String),
      (_note ["list"] t s).state = s ∧ (_note ["list"] t s).saved = false ∧
      (_todo ["list"] t s).state = s ∧ (_todo ["list"] t s).saved = false ∧
      (_help args s).state = s ∧ (_help args s).saved = false := by
  intro s t args
  have en : _note ["list"] t s =
      (if s.notes = [] then ⟨s, [.line "(no notes)"], false⟩
      else ⟨s, (noteLines 1 s.notes).map Out.line, false⟩ : HandlerResult) := rfl
  have et : _todo ["list"] t s =
      (if s.todos = [] then ⟨s, [.line "(no todos)"], false⟩
      else ⟨s, (todoLines 1 s.todos).map Out.line, false⟩ : HandlerResult) := rfl
  have eh : (_help args s).state = s ∧ (_help args s).saved = false := by
    cases args with
    | nil => exact ⟨rfl, rfl⟩
    | cons a rest =>
      rcases hr : resolve a with _ | cmd <;> simp [_help, hr]
  refine ⟨?_, ?_, ?_, ?_, eh.1, eh.2⟩
  · rw [en]; split <;> rfl
  · rw [en]; split <;> rfl
  · rw [et]; split <;> rfl
  · rw [et]; split <;> rfl

/-- C3 (counterexample): for the input line `please remember call mom`, the
arguments remaining after the command token are `remember call mom`; none
of them is a stop-word, so the filtered argument list is NOT empty, the
whole-line special case does not fire, and the stored note text is
`remember call mom` — not the full original line as the claim states. -/
theorem please_remember_counterexample :
    resolveLine ["please", "remember", "call", "mom"]
      = .run "note" ["remember", "call", "mom"] ∧
    ["remember", "call", "mom"] ≠ ([] : List String) ∧
    stepEvent "T" ⟨[], [], "c"⟩ (.gotLine (.ok ["please", "remember", "call", "mom"]))
      = .continued ⟨[⟨"T", "remember call mom"⟩], [], "c"⟩ [.line "Saved note."] true ∧
    "remember call mom" ≠ "please remember call mom" :=
  ⟨rfl, by decide, rfl, by decide⟩

/-- C3 (amended): for input `please remember call mom`, direct resolution
of `please` fails and the dispatcher falls back via the intent keyword
`remember` to the note command; the remaining arguments `remember call
mom` survive stop-word filtering, so (being nonempty) the whole-line
special case does not apply and the stored note text is
`remember call mom`. -/
theorem please_remember_dispatch :
    ∀ (s : VAState) (t : String),
      resolve "please" = none ∧
      guess_intent ["please", "remember", "call", "mom"] = some "note" ∧
      stepEvent t s (.gotLine (.ok ["please", "remember", "call", "mom"]))
        = .continued { s with notes := s.notes ++ [⟨t, "remember call mom"⟩] }
            [.line "Saved note."] true :=
  fun _ _ => ⟨rfl, rfl, rfl⟩

/-- A dispatch step on a line that resolves to a command runs that command
behind the `try/except` boundary. -/
theorem stepEvent_run (t : String) (s : VAState) (parts : List String)
    (cmd : String) (args : List String) (h : resolveLine parts = .run cmd args) :
    stepEvent t s (.gotLine (.ok parts)) = guardInvoke cmd (execCommand cmd args t s) := by
  simp only [stepEvent]
  rw [h]

/-- A dispatch step on an unresolvable line only reports and continues. -/
theorem stepEvent_unknown (t : String) (s : VAState) (parts : List String)
    (tok : String) (h : resolveLine parts = .unknown tok) :
    stepEvent t s (.gotLine (.ok parts))
      = .continued s
          [.line ("Unknown command: " ++ tok ++ ". Try " ++ "\x27" ++ "help" ++ "\x27" ++ ".")]
          false := by
  simp only [stepEvent]
  rw [h]

/-- C8 (counterexample): the one-line report for a handler error starts
with a capital `E` — `Error running '<cmd>': <message>` — so it is not of
the lower-case form `error running '<cmd>': <message>` that the claim
quotes. -/
theorem error_message_capitalization :
    guardInvoke "todo" (.raises ⟨[], [], "c"⟩ "boom")
      = .continued ⟨[], [], "c"⟩ [.line "Error running \x27todo\x27: boom"] false ∧
    "Error running \x27todo\x27: boom" ≠ "error running \x27todo\x27: boom" :=
  ⟨rfl, by decide⟩

/-- C8 (amended): any runtime error raised by an invoked handler is caught
at the dispatch boundary and reported as the one-line message
`Error running '<cmd>': <message>` (with a capital E) containing the
command name and the error message, after which the loop continues with no
save; an iteration leaves the process only through the `exit` command's
`SystemExit`, end-of-input, or an interrupt. -/
theorem dispatch_error_handling :
    ∀ (cmd t msg : String) (s sMid : VAState) (ev : ReadEvent) (out : List Out),
      (guardInvoke cmd (.raises sMid msg)
        = .continued sMid
            [.line ("Error running " ++ "\x27" ++ cmd ++ "\x27" ++ ": " ++ msg)] false) ∧
      (∀ inv, guardInvoke cmd inv = .exited out → inv = .sysExit out) ∧
      (∀ args, execCommand cmd args t s = .sysExit out → cmd = "exit") ∧
      (stepEvent t s ev = .exited out →
        ev = .endOfInput ∨ ev = .interrupt ∨
        ∃ parts args, ev = .gotLine (.ok parts) ∧
          resolveLine parts = .run "exit" args ∧
          execCommand "exit" args t s = .sysExit out) := by
  intro cmd t msg s sMid ev out
  refine ⟨rfl, ?_, ?_, ?_⟩
  · intro inv h
    cases inv with
    | ok r => cases h
    | sysExit o => cases h; rfl
    | raises s2 m2 => cases h
  · intro args h
    unfold execCommand at h
    split_ifs at h with h1 h2 h3 h4 h5 h6 h7 h8
    exact h8
  · intro h
    cases ev with
    | endOfInput => exact .inl rfl
    | interrupt => exact .inr (.inl rfl)
    | gotLine toks =>
      refine .inr (.inr ?_)
      cases toks with
      | error e => cases h
      | ok parts =>
        cases hres : resolveLine parts with
        | run cmd2 args =>
          rw [stepEvent_run t s parts cmd2 args hres] at h
          have hinv : execCommand cmd2 args t s = .sysExit out := by
            cases hx : execCommand cmd2 args t s with
            | ok r => rw [hx] at h; cases h
            | sysExit o => rw [hx] at h; cases h; rfl
            | raises s2 m2 => rw [hx] at h; cases h
          have hcmd : cmd2 = "exit" := by
            have h9 := hinv
            unfold execCommand at h9
            split_ifs at h9 with e1 e2 e3 e4 e5 e6 e7 e8
            exact e8
          subst hcmd
          exact ⟨parts, args, rfl, hres, hinv⟩
        | unknown tok =>
          rw [stepEvent_unknown t s parts tok hres] at h
          cases h

/-- Witness for C8: a concrete raised error is reported and the loop
continues; the only handler whose invocation raises `SystemExit` is the
exit command. -/
theorem dispatch_error_handling_witness :
    guardInvoke "todo" (.raises ⟨[], [], "c"⟩ "boom")
      = .continued ⟨[], [], "c"⟩
          [.line ("Error running " ++ "\x27" ++ "todo" ++ "\x27" ++ ": " ++ "boom")] false ∧
    "exit" = "exit" :=
  ⟨(dispatch_error_handling "todo" "T" "boom" ⟨[], [], "c"⟩ ⟨[], [], "c"⟩
      .endOfInput []).1,
    (dispatch_error_handling "exit" "T" "m" ⟨[], [], "c"⟩ ⟨[], [], "c"⟩
      .endOfInput [.line "Bye!"]).2.2.1 [] rfl⟩

end VA

